import Mathlib

/-!
# Verification of humblAPI's caching, flushing and routing logic

Shallow embedding of the relevant parts of the `humblFINANCE/humblAPI`
repository:

* `src/humblapi/core/utils.py`: `request_key_builder`, `ORJsonCoder`,
  `redis_delete_pattern`;
* `src/humblapi/api/v1/routers/core.py`: `flush_redis`;
* `src/humblapi/api/v1/routers/portfolio.py`, `user_table.py`,
  `toolbox/humbl_channel.py`: symbol validation and the humblCHANNEL
  chart branch.

The Redis store is modelled as an association list of key/value strings.
Python semantics (string `split`, tuple ordering, `repr`, unbound local
variables) are embedded explicitly where the code relies on them.
-/

namespace HumblAPI

/-! ## Python string `repr`

`request_key_builder` uses `repr(sorted(request.query_params.items()))`.
We model Python's `repr` of a list of pairs of strings at the character
level: each string is quoted (Python prefers single quotes and switches to
double quotes when the string contains a single quote but no double
quote), with the backslash and the chosen quote character escaped by a
backslash.  Escapes of control characters are not modelled; they do not
affect any property below. -/

/-- Quote character chosen by Python's `repr` for a string: a single
quote, unless the string contains a single quote and no double quote. -/
def pyQuote (s : List Char) : Char :=
  if '\'' ∈ s ∧ '"' ∉ s then '"' else '\''

/-- Escaping of one character inside a Python string literal quoted by
`q`: the backslash and the quote character receive a backslash prefix. -/
def pyEscape (q c : Char) : List Char :=
  if c = '\\' ∨ c = q then ['\\', c] else [c]

/-- Python `repr` of a string (as a character list). -/
def pyReprStr (s : List Char) : List Char :=
  let q := pyQuote s
  q :: (s.flatMap (pyEscape q) ++ [q])

/-- Python `repr` of a pair of strings: `('name', 'value')`. -/
def pyReprPair (p : List Char × List Char) : List Char :=
  '(' :: (pyReprStr p.1 ++ ',' :: ' ' :: (pyReprStr p.2 ++ [')']))

/-- The comma-space separated element list inside a Python list `repr`. -/
def pyReprItems : List (List Char × List Char) → List Char
  | [] => []
  | [p] => pyReprPair p
  | p :: rest => pyReprPair p ++ ',' :: ' ' :: pyReprItems rest

/-- Python `repr` of a list of pairs of strings. -/
def pyReprList (l : List (List Char × List Char)) : List Char :=
  '[' :: (pyReprItems l ++ [']'])

/-- Python `repr` of a list of `(name, value)` query-parameter pairs,
as a Lean `String`. -/
def pyRepr (l : List (String × String)) : String :=
  ⟨pyReprList (l.map (fun p => (p.1.data, p.2.data)))⟩

/-! ## Python `sorted` on pairs of strings

Python's `sorted` on a list of 2-tuples of strings is a stable sort with
respect to lexicographic tuple comparison: compare the first components;
on a tie compare the second.  We model it with `List.insertionSort`
(also a stable sort) over that ordering; stability plus sortedness
determine the output uniquely, so the model agrees with Python's
Timsort. -/

/-- Python string comparison (`<`): lexicographic on code points. -/
def pyStrLt (a b : String) : Prop :=
  a.data < b.data

/-- Python string comparison (`<=`): lexicographic on code points. -/
def pyStrLe (a b : String) : Prop :=
  a.data ≤ b.data

instance : DecidableRel pyStrLt := fun a b =>
  inferInstanceAs (Decidable (a.data < b.data))

instance : DecidableRel pyStrLe := fun a b =>
  inferInstanceAs (Decidable (a.data ≤ b.data))

/-- Python's `≤` on pairs of strings (tuple comparison): first components
compared first, second components break ties. -/
def pairLe (a b : String × String) : Prop :=
  pyStrLt a.1 b.1 ∨ (a.1 = b.1 ∧ pyStrLe a.2 b.2)

instance : DecidableRel pairLe := fun a b =>
  inferInstanceAs (Decidable (pyStrLt a.1 b.1 ∨ (a.1 = b.1 ∧ pyStrLe a.2 b.2)))

/-- Python `sorted` on a list of `(name, value)` pairs. -/
def pySorted (l : List (String × String)) : List (String × String) :=
  l.insertionSort pairLe

/-! ## The cache key builder (`request_key_builder`) -/

/-- The parts of a FastAPI `Request` that `request_key_builder` reads. -/
structure Request where
  method : String
  url_path : String
  query_params : List (String × String)
deriving DecidableEq

/-- Python `str.lower()` (character-wise; the code applies it to ASCII
HTTP method names). -/
def pyLower (s : String) : String :=
  ⟨s.data.map Char.toLower⟩

/-- The key produced for a present request:
`":".join([namespace, request.method.lower(), request.url.path,
repr(sorted(request.query_params.items()))])`. -/
def request_key_builder_core (ns : String) (r : Request) : String :=
  String.intercalate ":"
    [ns, pyLower r.method, r.url_path, pyRepr (pySorted r.query_params)]

/-- The function `request_key_builder` as declared: `request` defaults to `None`.
With `request = None`, `request.method` raises `AttributeError`,
modelled by `none`. -/
def request_key_builder (ns : String) (request : Option Request) :
    Option String :=
  match request with
  | none => none
  | some r => some (request_key_builder_core ns r)

/-! ## Redis glob matching (`stringmatchlen`)

`redis_delete_pattern` hands its pattern to Redis `SCAN ... MATCH`.
Redis matches with `stringmatchlen` (case-sensitive for `SCAN`):
`*` matches any sequence, `?` any single character, `[...]` a character
class with `^` negation and `a-b` ranges, `\` escapes the next
character; an unterminated class extends to the end of the pattern. -/

/-- One pass over the body of a Redis `[...]` character class, deciding
whether `d` is matched; returns the decision and the pattern remaining
after the closing `]` (or the empty remainder for an unterminated
class).  `acc` accumulates matches found so far. -/
def matchClass (d : Char) : List Char → Bool → Bool × List Char
  | [], acc => (acc, [])
  | [c], acc =>
    if c = '\\' then (acc || ('\\' = d : Bool), [])
    else if c = ']' then (acc, [])
    else matchClass d [] (acc || (c = d))
  | [c, p1], acc =>
    if c = '\\' then matchClass d [] (acc || (p1 = d))
    else if c = ']' then (acc, [p1])
    else matchClass d [p1] (acc || (c = d))
  | c :: p1 :: p2 :: p3, acc =>
    if c = '\\' then matchClass d (p2 :: p3) (acc || (p1 = d))
    else if c = ']' then (acc, p1 :: p2 :: p3)
    else if p1 = '-' then
      matchClass d p3 (acc || (min c p2 ≤ d ∧ d ≤ max c p2 : Bool))
    else matchClass d (p1 :: p2 :: p3) (acc || (c = d))

theorem matchClass_length (d : Char) (p : List Char) (acc : Bool) :
    (matchClass d p acc).2.length ≤ p.length := by
  induction p, acc using matchClass.induct d <;>
    · simp only [matchClass]
      repeat' split
      all_goals simp_all
      all_goals omega

/-- The decision of a full `[...]` class (negation applied) together
with the pattern remaining after the class, for the pattern tail `p`
that starts right after the opening `[`. -/
def classMatch (d : Char) (p : List Char) : Bool × List Char :=
  match p with
  | c2 :: p2 =>
    if c2 = '^' then
      let r := matchClass d p2 false
      (!r.1, r.2)
    else
      let r := matchClass d p false
      (r.1, r.2)
  | [] => (false, [])

theorem classMatch_length (d : Char) (p : List Char) :
    (classMatch d p).2.length ≤ p.length := by
  match p with
  | [] => simp [classMatch]
  | c2 :: p2 =>
    simp only [classMatch]
    split
    · have := matchClass_length d p2 false
      simp only [List.length_cons]
      omega
    · exact matchClass_length d (c2 :: p2) false

theorem classMatch_length_lt (d c : Char) (p : List Char) :
    (classMatch d p).2.length < (c :: p).length :=
  Nat.lt_succ_of_le (classMatch_length d p)

/-- Redis `stringmatchlen` glob matching (case-sensitive). -/
def globMatch : List Char → List Char → Bool
  | [], s => s.isEmpty
  | c :: p, s =>
    if c = '*' then
      globMatch p s ||
        (match s with
         | [] => false
         | _ :: s2 => globMatch (c :: p) s2)
    else if c = '?' then
      match s with
      | [] => false
      | _ :: s2 => globMatch p s2
    else if c = '\\' then
      match p with
      | c2 :: p2 =>
        match s with
        | [] => false
        | d :: s2 => (c2 = d : Bool) && globMatch p2 s2
      | [] =>
        match s with
        | [] => false
        | d :: s2 => ('\\' = d : Bool) && globMatch [] s2
    else if c = '[' then
      match s with
      | [] => false
      | d :: s2 => (classMatch d p).1 && globMatch (classMatch d p).2 s2
    else
      match s with
      | [] => false
      | d :: s2 => (c = d : Bool) && globMatch p s2
termination_by p s => (p.length, s.length)
decreasing_by
  all_goals simp_wf
  all_goals
    first
    | decreasing_tactic
    | (apply Prod.Lex.left
       exact Nat.lt_succ_of_le (classMatch_length _ p))

/-! ## The Redis store and the flush operations

The Redis database is modelled as an association list of key/value
strings; `DBSIZE` is its length, `SCAN ... MATCH p` enumerates the keys
matching `p`, `DEL` removes a key, `FLUSHDB` empties the store. -/

/-- A Redis store: keys with their values. -/
abbrev RedisStore := List (String × String)

/-- The function `redis_delete_pattern` (`core/utils.py`) run against a quiescent
store: read `DBSIZE`, delete every key matching `pattern`, read
`DBSIZE` again, and return `records - records_left` (a Python `int`).
Returns the resulting store together with the reported count. -/
def redis_delete_pattern (pattern : String) (store : RedisStore) :
    RedisStore × Int :=
  let records : Int := store.length
  let store2 := store.filter (fun kv => !globMatch pattern.data kv.1.data)
  let records_left : Int := store2.length
  (store2, records - records_left)

/-- The function `redis_delete_pattern` with concurrent traffic: `interleaved` are
the (fresh, non-matching) keys written by other clients after the first
`DBSIZE` and the scan have passed their position, but before the second
`DBSIZE`.  The code's arithmetic is unchanged; only the store it runs
against evolves underneath it. -/
def redis_delete_pattern_concurrent (pattern : String) (store : RedisStore)
    (interleaved : RedisStore) : RedisStore × Int :=
  let records : Int := store.length
  let store2 := store.filter (fun kv => !globMatch pattern.data kv.1.data)
  let store3 := store2 ++ interleaved
  let records_left : Int := store3.length
  (store3, records - records_left)

/-- The number of keys `redis_delete_pattern` actually removes from
`store` when flushing `pattern`. -/
def removedCount (pattern : String) (store : RedisStore) : Int :=
  (store.filter (fun kv => globMatch pattern.data kv.1.data)).length

/-- Full `FLUSHDB` (`flush_redis`, non-cache-only branch) with
concurrent traffic: `interleaved` are keys written by other clients
between the `DBSIZE` read and the `FLUSHDB`; they are wiped as well,
but the reported count is the earlier `DBSIZE`. -/
def flushdb_concurrent (store interleaved : RedisStore) : RedisStore × Int :=
  let records : Int := store.length
  ((store ++ interleaved).filter (fun _ => false), records)

/-- Outcome of the `/flush-redis` endpoint. -/
structure FlushResponse where
  status_code : Nat
  message : String
  records_deleted : Option Int
deriving DecidableEq

/-- The endpoint `flush_redis` (`routers/core.py`): reject a wrong token with 403
before touching the store; otherwise flush either only the
`fastapi-cache:*` namespace or the whole database, reporting the
number of deleted records.  Returns the resulting store and the
response. -/
def flush_redis (flush_api_token token : String) (fastapi_cache_only : Bool)
    (store : RedisStore) : RedisStore × FlushResponse :=
  if token ≠ flush_api_token then
    (store, ⟨403, "Invalid API token", none⟩)
  else if fastapi_cache_only then
    let r := redis_delete_pattern "fastapi-cache:*" store
    (r.1, ⟨200, "FastAPI cache was flushed successfully.", some r.2⟩)
  else
    let records : Int := store.length
    ([], ⟨200, "Redis database flushed successfully.", some records⟩)

/-! ## Symbol validation on the data routes -/

/-- An HTTPException as raised by `raise_http_exception`
(`core/utils.py`). -/
structure HTTPException where
  status_code : Nat
  detail : String

/-- Python `str()` of a fastapi/starlette `HTTPException`:
`"<status_code>: <detail>"`. -/
def HTTPException.str (e : HTTPException) : String :=
  toString e.status_code ++ ": " ++ e.detail

/-- A JSON document. -/
inductive Json
  | null
  | bool (b : Bool)
  | num (n : Int)
  | str (s : String)
  | arr (elems : List Json)
  | obj (fields : List (String × Json))

/-- A Python value as handled by the coder. -/
inductive PyVal
  | none
  | bool (b : Bool)
  | int (n : Int)
  | str (s : String)
  | list (elems : List PyVal)
  | dict (fields : List (String × PyVal))
  | tuple (elems : List PyVal)
  | datetime (iso : String)

mutual

/-- The method `ORJsonCoder.encode`: the JSON document produced by
`orjson.dumps(value, default=jsonable_encoder, ...)`.  Tuples are
serialized as JSON arrays and `datetime`s as ISO strings. -/
def ORJsonCoder.encode : PyVal → Json
  | .none => .null
  | .bool b => .bool b
  | .int n => .num n
  | .str s => .str s
  | .list l => .arr (ORJsonCoder.encodeList l)
  | .tuple l => .arr (ORJsonCoder.encodeList l)
  | .dict l => .obj (ORJsonCoder.encodeFields l)
  | .datetime iso => .str iso

/-- The encoder mapped over list elements. -/
def ORJsonCoder.encodeList : List PyVal → List Json
  | [] => []
  | v :: vs => ORJsonCoder.encode v :: ORJsonCoder.encodeList vs

/-- The encoder mapped over object fields. -/
def ORJsonCoder.encodeFields :
    List (String × PyVal) → List (String × Json)
  | [] => []
  | f :: fs => (f.1, ORJsonCoder.encode f.2) :: ORJsonCoder.encodeFields fs

end

mutual

/-- The method `ORJsonCoder.decode`: the Python value `orjson.loads` builds from a
JSON document (arrays become lists, objects become dicts). -/
def ORJsonCoder.decode : Json → PyVal
  | .null => .none
  | .bool b => .bool b
  | .num n => .int n
  | .str s => .str s
  | .arr l => .list (ORJsonCoder.decodeList l)
  | .obj l => .dict (ORJsonCoder.decodeFields l)

/-- The decoder mapped over array elements. -/
def ORJsonCoder.decodeList : List Json → List PyVal
  | [] => []
  | v :: vs => ORJsonCoder.decode v :: ORJsonCoder.decodeList vs

/-- The decoder mapped over object fields. -/
def ORJsonCoder.decodeFields :
    List (String × Json) → List (String × PyVal)
  | [] => []
  | f :: fs => (f.1, ORJsonCoder.decode f.2) :: ORJsonCoder.decodeFields fs

end

mutual

/-- A Python value is JSON-native if it contains no tuple and no
`datetime`: exactly the values whose Python type survives
`decode ∘ encode`. -/
def jsonNative : PyVal → Bool
  | .none | .bool _ | .int _ | .str _ => true
  | .list l => jsonNativeList l
  | .dict l => jsonNativeFields l
  | .tuple _ => false
  | .datetime _ => false

/-- JSON-nativeness over list elements. -/
def jsonNativeList : List PyVal → Bool
  | [] => true
  | v :: vs => jsonNative v && jsonNativeList vs

/-- JSON-nativeness over dict fields. -/
def jsonNativeFields : List (String × PyVal) → Bool
  | [] => true
  | f :: fs => jsonNative f.2 && jsonNativeFields fs

end

/-! ## The response cache store

Modelled from the spec: the key-value backend behind `get`/`set` (the
fastapi-cache `RedisBackend`) is an external collaborator, not code of
this repository; §4.2 of the spec specifies `get(key)`,
`set(key, value, ttl_seconds)` with per-entry TTL and last-write-wins
overwrite.  Entries store the coder's encoded bytes (here: the JSON
document) with an absolute expiry instant. -/

/-- A cache entry: key, stored (encoded) value, absolute expiry. -/
abbrev CacheStore := List (String × Json × Nat)

/-- Modelled from the spec: `set(key, value, ttl_seconds)` at time
`now` — overwrite any prior entry under `key`; the entry expires at
`now + ttl`. -/
def cacheSet (store : CacheStore) (key : String) (value : Json)
    (ttl now : Nat) : CacheStore :=
  (key, value, now + ttl) :: store.filter (fun e => e.1 ≠ key)

/-- Modelled from the spec: `get(key)` at time `now` — the stored value
if present and unexpired, absence otherwise. -/
def cacheGet (store : CacheStore) (key : String) (now : Nat) : Option Json :=
  match store.find? (fun e => e.1 = key) with
  | Option.none => Option.none
  | Option.some e => if now < e.2.2 then Option.some e.2.1 else Option.none

/-! ## The humblCHANNEL chart branch (`routers/toolbox/humbl_channel.py`)

After a successful toolbox computation, the route builds its response.
In the `chart` branch the local variable `extra_data` is assigned only
inside `if equity_data:`; the `HumblResponse(..., extra=extra_data)`
call reads it unconditionally.  Python local-variable semantics are
modelled explicitly: `Option (Option ExtraData)` is the state of the
local `extra_data` (`none` = never assigned, reading it raises
`UnboundLocalError`).  The optional equity-data extraction
(`result.to_polars(...).to_dicts()`) is abstracted as a parameter
`extract : Option ExtraData` (`none` = the extraction failed and was
downgraded to a warning). -/

/-- Rows of the optional raw equity data. -/
abbrev ExtraData := List (String × String)

/-- The response the route hands back to FastAPI. -/
structure ChannelResponse where
  status_code : Nat
  message : String
  is_chart : Bool
  extra : Option ExtraData
deriving DecidableEq

/-- The Python error message for reading an unassigned local. -/
def unboundLocalMsg : String :=
  "cannot access local variable 'extra_data' where it is not associated with a value"

/-- The response-construction part of `humbl_channel_route` (toolbox
computation already succeeded), raising into `Except`. -/
def humbl_channel_route_body (chart equity_data : Bool)
    (extract : Option ExtraData) : Except String ChannelResponse :=
  if chart then
    -- `extra_data` is assigned only under `if equity_data:`
    let extra_var : Option (Option ExtraData) :=
      if equity_data then some extract else none
    match extra_var with
    | none => .error unboundLocalMsg
    | some extra_data =>
      .ok ⟨200, "humblCHANNEL data retrieved successfully with chart",
        true, extra_data⟩
  else
    -- here `extra_data = None` is assigned before the conditional
    let extra_data : Option ExtraData :=
      if equity_data then extract else Option.none
    .ok ⟨200, "humblCHANNEL data retrieved successfully", false, extra_data⟩

/-- The route `humbl_channel_route` with its `except Exception` boundary: any
raised error becomes an `HTTPException(status_code=400, ...)`. -/
def humbl_channel_route (chart equity_data : Bool)
    (extract : Option ExtraData) : ChannelResponse :=
  match humbl_channel_route_body chart equity_data extract with
  | .ok r => r
  | .error e => ⟨400, "Error in humbl_channel_route: " ++ e, false, Option.none⟩

/-! ## Supporting lemmas -/

theorem length_filter_add_length_filter_not {α : Type} (p : α → Bool)
    (l : List α) :
    (l.filter p).length + (l.filter (fun a => !p a)).length = l.length := by
  induction l with
  | nil => simp
  | cons a l ih => by_cases h : p a <;> simp [h] <;> omega

/-- C9: in the humblCHANNEL route, for every request with `chart=true`
and `equity_data=false` whose toolbox computation succeeds, the chart
branch reads the local `extra_data` without it ever having been
assigned, so the request ends as a 400 error response instead of the
chart payload; with `equity_data=true` the chart branch succeeds. -/
theorem humbl_channel_chart_unbound_local (extract : Option ExtraData) :
    humbl_channel_route true false extract =
      ⟨400, "Error in humbl_channel_route: " ++ unboundLocalMsg, false,
        Option.none⟩ ∧
    (humbl_channel_route true true extract).status_code = 200 ∧
    (humbl_channel_route true true extract).is_chart = true :=
  ⟨rfl, rfl, rfl⟩

/-- C2: with the configured token and `fastapi_cache_only=false`, the
flush endpoint empties the store and reports its prior size with a
success message; with any other token it returns 403 and leaves the
store untouched. -/
theorem flush_redis_token_contract (flush_api_token token : String)
    (fastapi_cache_only : Bool) (store : RedisStore) :
    (token = flush_api_token →
      flush_redis flush_api_token token false store =
        ([], ⟨200, "Redis database flushed successfully.",
          some (store.length : Int)⟩)) ∧
    (token ≠ flush_api_token →
      flush_redis flush_api_token token fastapi_cache_only store =
        (store, ⟨403, "Invalid API token", none⟩)) := by
  constructor
  · intro h
    simp [flush_redis, h]
  · intro h
    simp [flush_redis, h]

theorem flush_redis_token_contract_witness :
    flush_redis "secret" "secret" false [("k", "v")] =
      ([], ⟨200, "Redis database flushed successfully.", some 1⟩) ∧
    flush_redis "secret" "wrong" true [("k", "v")] =
      ([("k", "v")], ⟨403, "Invalid API token", none⟩) :=
  ⟨(flush_redis_token_contract "secret" "secret" false [("k", "v")]).1 rfl,
   (flush_redis_token_contract "secret" "wrong" true [("k", "v")]).2
     (by decide)⟩

/-- C10 counterexample: one interleaved write of a fresh non-matching
key during the pattern flush makes the endpoint report `0` deleted
records although the flush itself removed one key. -/
theorem concurrent_flush_count_inaccurate :
    (redis_delete_pattern_concurrent "fastapi-cache:*"
        [("fastapi-cache:a", "1")] [("other:x", "2")]).2 = 0 ∧
    removedCount "fastapi-cache:*" [("fastapi-cache:a", "1")] = 1 := by
  constructor <;>
    simp [redis_delete_pattern_concurrent, removedCount, globMatch]

/-- C10 amended: the deleted-count both flush operations report is the
number of keys actually removed *minus* the number of keys written
concurrently during the flush; it is accurate exactly in the quiescent
case (no interleaved writes). -/
theorem concurrent_flush_count_formula (pattern : String)
    (store interleaved : RedisStore) :
    (redis_delete_pattern_concurrent pattern store interleaved).2 =
      removedCount pattern store - interleaved.length ∧
    (flushdb_concurrent store interleaved).2 =
      ((store ++ interleaved).length : Int) - interleaved.length ∧
    (redis_delete_pattern_concurrent pattern store []).2 =
      removedCount pattern store := by
  have hf := length_filter_add_length_filter_not
    (fun kv => globMatch pattern.data kv.1.data) store
  refine ⟨?_, ?_, ?_⟩
  · simp only [redis_delete_pattern_concurrent, removedCount,
      List.length_append]
    push_cast
    omega
  · simp only [flushdb_concurrent, List.length_append]
    push_cast
    omega
  · simp only [redis_delete_pattern_concurrent, removedCount,
      List.append_nil]
    omega

/-! ### Glob patterns of the shape `ns:*` -/

/-- A character with no special glob meaning. -/
def GlobLit (c : Char) : Prop :=
  c ≠ '*' ∧ c ≠ '?' ∧ c ≠ '\\' ∧ c ≠ '['

instance : DecidablePred GlobLit := fun c =>
  inferInstanceAs (Decidable (c ≠ '*' ∧ c ≠ '?' ∧ c ≠ '\\' ∧ c ≠ '['))

theorem globMatch_star (s : List Char) : globMatch ['*'] s = true := by
  induction s with
  | nil => simp [globMatch]
  | cons c s ih => simp [globMatch, ih]

theorem globMatch_lit_cons {c : Char} (p : List Char) (h : GlobLit c)
    (s : List Char) :
    globMatch (c :: p) s =
      match s with
      | [] => false
      | d :: s2 => (c = d : Bool) && globMatch p s2 := by
  obtain ⟨h1, h2, h3, h4⟩ := h
  rw [globMatch.eq_def]
  simp only [if_neg h1, if_neg h2, if_neg h3, if_neg h4]

theorem globMatch_lit_prefix_star (pre : List Char)
    (h : ∀ c ∈ pre, GlobLit c) (s : List Char) :
    globMatch (pre ++ ['*']) s = true ↔ pre <+: s := by
  induction pre generalizing s with
  | nil => simpa using globMatch_star s
  | cons c pre ih =>
    rw [List.cons_append,
      globMatch_lit_cons (pre ++ ['*']) (h c (List.mem_cons_self c pre)) s]
    cases s with
    | nil => simp
    | cons d s2 =>
      have := ih (fun a ha => h a (List.mem_cons_of_mem c ha)) s2
      simp [this, List.cons_prefix_cons, And.comm]

/-- C1: flushing a pattern `ns:*` (for a namespace free of glob
metacharacters) removes exactly the keys whose name starts with `ns:`,
leaves every other entry unchanged, and reports the number of entries
actually removed; in particular the spec's scenario for
`fastapi-cache:*`. -/
theorem redis_delete_pattern_spec (ns : String) (store : RedisStore)
    (h : ∀ c ∈ ns.data, GlobLit c) :
    (∀ kv : String × String,
      kv ∈ (redis_delete_pattern (ns ++ ":*") store).1 ↔
        kv ∈ store ∧ ¬ (ns ++ ":").data <+: kv.1.data) ∧
    (redis_delete_pattern (ns ++ ":*") store).2 =
      ((store.filter
        (fun kv => (ns ++ ":").data.isPrefixOf kv.1.data)).length : Int) ∧
    redis_delete_pattern "fastapi-cache:*"
        [("fastapi-cache:a", "1"), ("fastapi-cache:b", "2"),
          ("other:c", "3")] =
      ([("other:c", "3")], 2) := by
  have hdata : (ns ++ ":*").data = (ns.data ++ [':']) ++ ['*'] := by
    simp [String.data_append]
  have hpre : ∀ c ∈ ns.data ++ [':'], GlobLit c := by
    intro c hc
    rcases List.mem_append.mp hc with hc | hc
    · exact h c hc
    · simp only [List.mem_singleton] at hc
      subst hc
      exact ⟨by decide, by decide, by decide, by decide⟩
  have hmatch : ∀ k : String,
      globMatch (ns ++ ":*").data k.data = true ↔
        (ns ++ ":").data <+: k.data := by
    intro k
    rw [hdata, globMatch_lit_prefix_star (ns.data ++ [':']) hpre k.data]
    simp [String.data_append]
  refine ⟨?_, ?_, ?_⟩
  · intro kv
    simp only [redis_delete_pattern, List.mem_filter, Bool.not_eq_true',
      ← Bool.not_eq_true]
    rw [hmatch kv.1]
  · have hfilters :
        store.filter (fun kv => (ns ++ ":").data.isPrefixOf kv.1.data) =
          store.filter (fun kv => globMatch (ns ++ ":*").data kv.1.data) := by
      apply List.filter_congr
      intro kv _
      rw [← Bool.coe_iff_coe]
      simp only [ List.isPrefixOf_iff_prefix]
      exact (hmatch kv.1).symm
    rw [hfilters]
    have := length_filter_add_length_filter_not
      (fun kv => globMatch (ns ++ ":*").data kv.1.data) store
    simp only [redis_delete_pattern]
    omega
  · simp [redis_delete_pattern, globMatch]

theorem redis_delete_pattern_spec_witness :
    (redis_delete_pattern ("fastapi-cache" ++ ":*")
        [("fastapi-cache:a", "1"), ("fastapi-cache:b", "2"),
          ("other:c", "3")]).2 =
      (([("fastapi-cache:a", "1"), ("fastapi-cache:b", "2"),
          ("other:c", "3")].filter
        (fun kv =>
          ("fastapi-cache" ++ ":").data.isPrefixOf kv.1.data)).length : Int) :=
  (redis_delete_pattern_spec "fastapi-cache"
    [("fastapi-cache:a", "1"), ("fastapi-cache:b", "2"), ("other:c", "3")]
    (by decide)).2.1

/-! ### Order properties of the tuple comparison -/

theorem pyStrLt_iff (a b : String) : pyStrLt a b ↔ a.data < b.data :=
  Iff.rfl

theorem pyStrLe_iff (a b : String) : pyStrLe a b ↔ a.data ≤ b.data :=
  Iff.rfl

instance : IsTotal (String × String) pairLe := by
  constructor
  intro a b
  rcases lt_trichotomy a.1.data b.1.data with hlt | heq | hgt
  · exact Or.inl (Or.inl hlt)
  · have h1 : a.1 = b.1 := String.ext heq
    rcases le_total a.2.data b.2.data with hle | hle
    · exact Or.inl (Or.inr ⟨h1, hle⟩)
    · exact Or.inr (Or.inr ⟨h1.symm, hle⟩)
  · exact Or.inr (Or.inl hgt)

instance : IsTrans (String × String) pairLe := by
  constructor
  rintro a b c (hab | ⟨hab, hab2⟩) (hbc | ⟨hbc, hbc2⟩)
  · exact Or.inl (lt_trans hab hbc)
  · exact Or.inl (hbc ▸ hab)
  · exact Or.inl (hab ▸ hbc)
  · exact Or.inr ⟨hab.trans hbc, le_trans hab2 hbc2⟩

instance : IsAntisymm (String × String) pairLe := by
  constructor
  rintro ⟨a1, a2⟩ ⟨b1, b2⟩ (hab | ⟨hab, hab2⟩) (hba | ⟨hba, hba2⟩)
  · exact absurd hba (lt_asymm hab)
  · exact absurd hab (hba ▸ lt_irrefl _)
  · exact absurd hba (hab ▸ lt_irrefl _)
  · exact Prod.ext hab (String.ext (le_antisymm hab2 hba2))

theorem pySorted_eq_of_perm {q1 q2 : List (String × String)}
    (h : q1.Perm q2) : pySorted q1 = pySorted q2 :=
  List.eq_of_perm_of_sorted
    ((List.perm_insertionSort pairLe q1).trans
      (h.trans (List.perm_insertionSort pairLe q2).symm))
    (List.sorted_insertionSort pairLe q1)
    (List.sorted_insertionSort pairLe q2)

/-- C3: the cache key does not depend on the order of the query
parameters: two requests with the same namespace, method, path and the
same multiset of query parameters produce the same key. -/
theorem request_key_order_independent (ns m path : String)
    (q1 q2 : List (String × String)) (h : q1.Perm q2) :
    request_key_builder_core ns ⟨m, path, q1⟩ =
      request_key_builder_core ns ⟨m, path, q2⟩ := by
  simp only [request_key_builder_core, pySorted_eq_of_perm h]

theorem request_key_order_independent_witness :
    request_key_builder_core "ns" ⟨"GET", "/p", [("b", "2"), ("a", "1")]⟩ =
      request_key_builder_core "ns" ⟨"GET", "/p", [("a", "1"), ("b", "2")]⟩ :=
  request_key_order_independent "ns" "GET" "/p" _ _
    (List.Perm.swap ("a", "1") ("b", "2") [])

/-! ### The key's shape (claim C4) -/

theorem request_key_builder_core_eq (ns : String) (r : Request) :
    request_key_builder_core ns r =
      ns ++ ":" ++ pyLower r.method ++ ":" ++ r.url_path ++ ":" ++
        pyRepr (pySorted r.query_params) :=
  rfl

/-- The comparator exactly as §4.1 of the spec words it: sort "by
parameter name", with "lexicographic tie-break ... on value". -/
def specSortLe (a b : String × String) : Prop :=
  pyStrLt a.1 b.1 ∨ (a.1 = b.1 ∧ pyStrLe a.2 b.2)

instance : DecidableRel specSortLe := fun a b =>
  inferInstanceAs (Decidable (pyStrLt a.1 b.1 ∨ (a.1 = b.1 ∧ pyStrLe a.2 b.2)))

/-- The cache key as §4.1 of the spec describes it: the namespace, the
lowercased method, the path, and the string form of the query-parameter
pairs sorted by name with lexicographic tie-break on value, the four
segments separated by `":"`. -/
def request_key_builder_spec (ns : String) (r : Request) : String :=
  ns ++ ":" ++ pyLower r.method ++ ":" ++ r.url_path ++ ":" ++
    pyRepr (r.query_params.insertionSort specSortLe)

theorem insertionSort_pairLe_eq_specSortLe (l : List (String × String)) :
    l.insertionSort pairLe = l.insertionSort specSortLe := by
  have horder : ∀ a b : String × String, pairLe a b ↔ specSortLe a b :=
    fun a b => Iff.rfl
  induction l with
  | nil => rfl
  | cons a l ih =>
    simp only [List.insertionSort, ih]
    generalize l.insertionSort specSortLe = l2
    induction l2 with
    | nil => rfl
    | cons b l2 ih2 =>
      simp only [List.orderedInsert]
      by_cases hab : pairLe a b
      · rw [if_pos hab, if_pos ((horder a b).mp hab)]
      · rw [if_neg hab, if_neg (fun hc => hab ((horder a b).mpr hc)), ih2]

/-- C4: the built key equals the spec's description — namespace,
lowercased method, path and the sorted parameter list's string form,
joined by the `":"` delimiter. -/
theorem request_key_builder_matches_spec (ns : String) (r : Request) :
    request_key_builder_core ns r = request_key_builder_spec ns r := by
  rw [request_key_builder_core_eq, request_key_builder_spec, pySorted,
    insertionSort_pairLe_eq_specSortLe]

/-- C6 counterexample: the signature admits `request = None` (it is the
declared default), but then `request.method` raises `AttributeError`
instead of returning a key. -/
theorem request_key_builder_none_raises :
    request_key_builder "" none = none :=
  rfl

/-- C6 amended: for every *present* request the key builder is total
and pure — it returns a key for every namespace, method, path and
query-parameter collection, and an empty parameter collection yields
the `[]` segment; only the admitted `request = None` raises. -/
theorem request_key_builder_total_on_present (ns : String) (r : Request) :
    (∃ k, request_key_builder ns (some r) = some k) ∧
    request_key_builder ns (some ⟨r.method, r.url_path, []⟩) =
      some (ns ++ ":" ++ pyLower r.method ++ ":" ++ r.url_path ++ ":" ++
        "[]") ∧
    request_key_builder ns none = none := by
  refine ⟨⟨request_key_builder_core ns r, rfl⟩, ?_, rfl⟩
  simp only [request_key_builder, request_key_builder_core_eq]
  rfl

/-! ### The coder round-trip (claim C8) -/

mutual

theorem decode_encode (v : PyVal) (h : jsonNative v = true) :
    ORJsonCoder.decode (ORJsonCoder.encode v) = v := by
  match v with
  | .none => rfl
  | .bool b => rfl
  | .int n => rfl
  | .str s => rfl
  | .list l =>
    have hl : jsonNativeList l = true := by
      simpa [jsonNative] using h
    simp only [ORJsonCoder.encode, ORJsonCoder.decode,
      decode_encode_list l hl]
  | .dict l =>
    have hl : jsonNativeFields l = true := by
      simpa [jsonNative] using h
    simp only [ORJsonCoder.encode, ORJsonCoder.decode,
      decode_encode_fields l hl]
  | .tuple l => simp [jsonNative] at h
  | .datetime iso => simp [jsonNative] at h

theorem decode_encode_list (l : List PyVal) (h : jsonNativeList l = true) :
    ORJsonCoder.decodeList (ORJsonCoder.encodeList l) = l := by
  match l with
  | [] => rfl
  | v :: vs =>
    have hv : jsonNative v = true ∧ jsonNativeList vs = true := by
      simpa [jsonNativeList] using h
    simp only [ORJsonCoder.encodeList, ORJsonCoder.decodeList,
      decode_encode v hv.1, decode_encode_list vs hv.2]

theorem decode_encode_fields (l : List (String × PyVal))
    (h : jsonNativeFields l = true) :
    ORJsonCoder.decodeFields (ORJsonCoder.encodeFields l) = l := by
  match l with
  | [] => rfl
  | f :: fs =>
    have hf : jsonNative f.2 = true ∧ jsonNativeFields fs = true := by
      simpa [jsonNativeFields] using h
    simp only [ORJsonCoder.encodeFields, ORJsonCoder.decodeFields,
      decode_encode f.2 hf.1, decode_encode_fields fs hf.2]

end

/-- C8 counterexample: a cached response value that is not JSON-native —
here a `datetime`, as carried by the cached route responses — does not
round-trip: decoding its encoding yields the ISO string, not the
original value. -/
theorem coder_roundtrip_fails_on_datetime :
    ORJsonCoder.decode
        (ORJsonCoder.encode (PyVal.datetime "2024-01-01T00:00:00")) ≠
      PyVal.datetime "2024-01-01T00:00:00" := by
  intro h
  exact PyVal.noConfusion h

/-- C8 amended: `set` followed by `get` within the TTL window returns
the stored (encoded) value unchanged, and the coder round-trip
`decode (encode v) = v` holds for every JSON-native value `v`; values
containing tuples or `datetime`s come back as their JSON equivalents
instead. -/
theorem cache_set_get_roundtrip (store : CacheStore) (key : String)
    (v : PyVal) (ttl now : Nat) (httl : 0 < ttl)
    (hv : jsonNative v = true) :
    cacheGet (cacheSet store key (ORJsonCoder.encode v) ttl now) key now =
      some (ORJsonCoder.encode v) ∧
    ORJsonCoder.decode (ORJsonCoder.encode v) = v := by
  refine ⟨?_, decode_encode v hv⟩
  simp [cacheSet, cacheGet, Nat.lt_add_of_pos_right httl]

theorem cache_set_get_roundtrip_witness :
    cacheGet (cacheSet [] "k" (ORJsonCoder.encode (PyVal.str "x")) 5 0)
        "k" 0 = some (ORJsonCoder.encode (PyVal.str "x")) ∧
    ORJsonCoder.decode (ORJsonCoder.encode (PyVal.str "x")) =
      PyVal.str "x" :=
  cache_set_get_roundtrip [] "k" (PyVal.str "x") 5 0 (by decide) rfl

/-! ### Injectivity of the `repr` segment (claim C5)

The `repr` encoding is uniquely parseable: we exhibit a decoder and
prove the round-trip, which yields injectivity of `pyRepr`. -/

/-- Decode the body of a quoted string (quote character `q`) up to its
closing quote; returns the decoded string and the remaining input. -/
def decStr (q : Char) : List Char → Option (List Char × List Char)
  | [] => none
  | c :: rest =>
    if c = q then some ([], rest)
    else if c = '\\' then
      match rest with
      | [] => none
      | d :: rest2 => (decStr q rest2).map (fun r => (d :: r.1, r.2))
    else (decStr q rest).map (fun r => (c :: r.1, r.2))

/-- Decode a quoted string starting at its opening quote. -/
def decQuoted : List Char → Option (List Char × List Char)
  | [] => none
  | q :: rest => if q = '\'' ∨ q = '"' then decStr q rest else none

/-- Decode one `('name', 'value')` pair. -/
def decPair : List Char → Option ((List Char × List Char) × List Char)
  | '(' :: rest =>
    match decQuoted rest with
    | some (n, rest1) =>
      match rest1 with
      | ',' :: ' ' :: rest2 =>
        match decQuoted rest2 with
        | some (v, rest3) =>
          match rest3 with
          | ')' :: rest4 => some ((n, v), rest4)
          | _ => none
        | none => none
      | _ => none
    | none => none
  | _ => none

/-- Decode a `", "`-separated non-empty sequence of pairs ( fuelled ). -/
def decItems : Nat → List Char →
    Option (List (List Char × List Char) × List Char)
  | 0, _ => none
  | fuel + 1, l =>
    match decPair l with
    | some (p, rest) =>
      match rest with
      | ',' :: ' ' :: rest2 =>
        match decItems fuel rest2 with
        | some (ps, rest3) => some (p :: ps, rest3)
        | none => none
      | _ => some ([p], rest)
    | none => none

/-- Decode a full `[...]` list of pairs. -/
def decList (l : List Char) :
    Option (List (List Char × List Char) × List Char) :=
  match l with
  | '[' :: rest =>
    match rest with
    | ']' :: rest2 => some ([], rest2)
    | _ =>
      match decItems rest.length rest with
      | some (ps, ']' :: rest2) => some (ps, rest2)
      | _ => none
  | _ => none

theorem pyQuote_cases (s : List Char) :
    pyQuote s = '\'' ∨ pyQuote s = '"' := by
  unfold pyQuote
  split
  · exact Or.inr rfl
  · exact Or.inl rfl

theorem pyQuote_ne_backslash (s : List Char) : pyQuote s ≠ '\\' := by
  rcases pyQuote_cases s with h | h <;> simp [h]

theorem decStr_cons (q c : Char) (l : List Char) :
    decStr q (c :: l) =
      if c = q then some ([], l)
      else if c = '\\' then
        match l with
        | [] => none
        | d :: rest2 => (decStr q rest2).map (fun r => (d :: r.1, r.2))
      else (decStr q l).map (fun r => (c :: r.1, r.2)) := by
  rw [decStr.eq_def]

theorem decStr_roundtrip (q : Char) (hq : q ≠ '\\') (s rest : List Char) :
    decStr q (s.flatMap (pyEscape q) ++ (q :: rest)) = some (s, rest) := by
  induction s with
  | nil =>
    simp only [List.flatMap_nil, List.nil_append]
    rw [decStr_cons]
    simp
  | cons c s ih =>
    by_cases hc : c = '\\' ∨ c = q
    · have hbq : ¬ ('\\' = q) := fun h => hq h.symm
      simp only [List.flatMap_cons, pyEscape, if_pos hc, List.cons_append,
        List.nil_append, List.append_assoc]
      rw [decStr_cons]
      simp [hbq, ih]
    · push_neg at hc
      simp only [List.flatMap_cons, pyEscape,
        if_neg (by tauto : ¬ (c = '\\' ∨ c = q)), List.cons_append,
        List.nil_append, List.append_assoc, List.singleton_append]
      rw [decStr_cons]
      simp [hc.1, hc.2, ih]

theorem decQuoted_roundtrip (s rest : List Char) :
    decQuoted (pyReprStr s ++ rest) = some (s, rest) := by
  unfold pyReprStr
  simp only [List.cons_append, List.append_assoc, List.singleton_append]
  rw [decQuoted]
  rw [if_pos (pyQuote_cases s)]
  exact decStr_roundtrip (pyQuote s) (pyQuote_ne_backslash s) s rest

theorem decPair_roundtrip (p : List Char × List Char) (rest : List Char) :
    decPair (pyReprPair p ++ rest) = some (p, rest) := by
  obtain ⟨n, v⟩ := p
  simp only [pyReprPair, List.cons_append, List.append_assoc,
    List.singleton_append, List.nil_append]
  simp only [decPair, decQuoted_roundtrip]

theorem pyReprPair_head (p : List Char × List Char) :
    ∃ t, pyReprPair p = '(' :: t :=
  ⟨_, rfl⟩

theorem pyReprItems_head (p : List Char × List Char)
    (l : List (List Char × List Char)) :
    ∃ t, pyReprItems (p :: l) = '(' :: t := by
  cases l with
  | nil => exact ⟨_, rfl⟩
  | cons p2 l2 => exact ⟨_, rfl⟩

theorem length_le_pyReprItems_length (l : List (List Char × List Char)) :
    l.length ≤ (pyReprItems l).length := by
  induction l with
  | nil => simp [pyReprItems]
  | cons p l ih =>
    cases l with
    | nil => simp [pyReprItems, pyReprPair]
    | cons p2 l2 =>
      rw [show pyReprItems (p :: p2 :: l2) =
        pyReprPair p ++ ',' :: ' ' :: pyReprItems (p2 :: l2) from rfl]
      simp only [List.length_cons, List.length_append] at ih ⊢
      have hp : 1 ≤ (pyReprPair p).length := by
        obtain ⟨t, ht⟩ := pyReprPair_head p
        simp [ht]
      omega

theorem decItems_roundtrip :
    ∀ (l : List (List Char × List Char)) (r : List Char) (fuel : Nat),
      l ≠ [] → l.length ≤ fuel →
      decItems fuel (pyReprItems l ++ (']' :: r)) = some (l, ']' :: r)
  | [], _, _, h, _ => absurd rfl h
  | [p], r, 0, _, hf => by simp at hf
  | [p], r, fuel + 1, _, _ => by
    rw [show pyReprItems [p] = pyReprPair p from rfl, decItems]
    rw [decPair_roundtrip p (']' :: r)]
    rfl
  | p :: p2 :: ps, r, 0, _, hf => by simp at hf
  | p :: p2 :: ps, r, fuel + 1, _, hf => by
    have hrec := decItems_roundtrip (p2 :: ps) r fuel (by simp)
      (by simp only [List.length_cons] at hf ⊢; omega)
    rw [show pyReprItems (p :: p2 :: ps) =
      pyReprPair p ++ ',' :: ' ' :: pyReprItems (p2 :: ps) from rfl, decItems]
    simp only [List.append_assoc, List.cons_append]
    rw [decPair_roundtrip p
      (',' :: ' ' :: (pyReprItems (p2 :: ps) ++ ']' :: r))]
    simp only [hrec]

theorem decList_roundtrip (l : List (List Char × List Char))
    (r : List Char) :
    decList (pyReprList l ++ r) = some (l, r) := by
  cases l with
  | nil => rfl
  | cons p ps =>
    obtain ⟨t, ht⟩ := pyReprItems_head p ps
    have hlen : (p :: ps).length ≤ (pyReprItems (p :: ps) ++ (']' :: r)).length := by
      have := length_le_pyReprItems_length (p :: ps)
      simp only [List.length_append]
      omega
    have hitems := decItems_roundtrip (p :: ps) r
      ((pyReprItems (p :: ps) ++ (']' :: r)).length) (by simp) hlen
    simp only [pyReprList, List.cons_append, List.append_assoc,
      List.singleton_append, List.nil_append]
    rw [decList]
    · rw [ht] at hitems ⊢
      simp only [List.cons_append, List.nil_append] at hitems ⊢
      rw [hitems]
      rfl
    · intro rest2 heq
      rw [ht] at heq
      simp at heq

theorem pyReprList_inj {l1 l2 : List (List Char × List Char)}
    (h : pyReprList l1 = pyReprList l2) : l1 = l2 := by
  have h1 := decList_roundtrip l1 []
  have h2 := decList_roundtrip l2 []
  rw [List.append_nil] at h1 h2
  rw [h, h2] at h1
  exact (Prod.mk.injEq _ _ _ _ ▸ Option.some.injEq _ _ ▸ h1).1.symm

theorem pyRepr_inj {l1 l2 : List (String × String)}
    (h : pyRepr l1 = pyRepr l2) : l1 = l2 := by
  have hdata : pyReprList (l1.map (fun p => (p.1.data, p.2.data))) =
      pyReprList (l2.map (fun p => (p.1.data, p.2.data))) :=
    congrArg String.data h
  have hmap := pyReprList_inj hdata
  have hinj : Function.Injective
      (fun p : String × String => (p.1.data, p.2.data)) := by
    rintro ⟨a1, a2⟩ ⟨b1, b2⟩ hab
    simp only [Prod.mk.injEq] at hab
    exact Prod.ext (String.ext hab.1) (String.ext hab.2)
  exact List.map_injective_iff.mpr hinj hmap

/-- C5: two requests with the same namespace, method and path whose
query-parameter collections differ in the values carried by at least
one parameter name receive different cache keys. -/
theorem request_key_value_sensitive (ns m path : String)
    (q1 q2 : List (String × String))
    (h : ∃ n : String,
      ((q1.filter (fun p => p.1 == n)).map Prod.snd : Multiset String) ≠
        ((q2.filter (fun p => p.1 == n)).map Prod.snd : Multiset String)) :
    request_key_builder_core ns ⟨m, path, q1⟩ ≠
      request_key_builder_core ns ⟨m, path, q2⟩ := by
  intro hk
  obtain ⟨n, hn⟩ := h
  apply hn
  rw [request_key_builder_core_eq, request_key_builder_core_eq] at hk
  have hd := congrArg String.data hk
  simp only [String.data_append, List.append_assoc,
    List.append_cancel_left_eq] at hd
  have hrepr : pyRepr (pySorted q1) = pyRepr (pySorted q2) := String.ext hd
  have hsort : pySorted q1 = pySorted q2 := pyRepr_inj hrepr
  have h2 : (pySorted q1).Perm q2 := by
    rw [hsort]
    exact List.perm_insertionSort pairLe q2
  have hperm : q1.Perm q2 :=
    (List.perm_insertionSort pairLe q1).symm.trans h2
  exact Multiset.coe_eq_coe.mpr
    ((hperm.filter (fun p => p.1 == n)).map Prod.snd)

theorem request_key_value_sensitive_witness :
    request_key_builder_core "ns" ⟨"GET", "/p", [("a", "1")]⟩ ≠
      request_key_builder_core "ns" ⟨"GET", "/p", [("a", "2")]⟩ :=
  request_key_value_sensitive "ns" "GET" "/p" [("a", "1")] [("a", "2")]
    ⟨"a", by decide⟩

end HumblAPI
